import Mathlib

/-
Shallow embedding of the time-series interpolation core of the mwlmc
repository: the orientation table of src/include/orient.h and the
spherical-harmonic coefficient table of sphcoefs.h.

Modelling conventions:
- machine doubles are modelled as exact rationals (the claims under study
  are algebraic, not rounding claims);
- a C++ vector access at a negative index or at/past the stored length is
  an out-of-bounds access and is modelled by Option.none;
- the fatal exit() paths of find_initial_velocity and read_orient are
  modelled as error values of an Except type, so that a fatal load returns
  no populated table;
- the console diagnostics (cerr range warnings) are modelled as Bool flags
  carried in the return values of the index resolvers.
-/

/-- The C-style cast `(int)x` applied to a double: truncation toward zero,
i.e. floor for nonnegative arguments and ceiling for negative ones. -/
def ratTrunc (x : ℚ) : ℤ := if 0 ≤ x then ⌊x⌋ else ⌈x⌉

/-- Read a C++ `vector<double>` at a signed index: a negative index or an
index at or past the end is an out-of-bounds access, modelled as none. -/
def zGet (l : List ℚ) (i : ℤ) : Option ℚ :=
  if i < 0 then none else l.get? i.toNat

/-- The uniform-policy pre-clamp interval index `(int)((q - T[0]) / dt)`,
as computed by select_coefficient_time (sphcoefs.h, line 54) and by the
eventime branches of interpolate_centre (orient.h, line 120) and
interpolate_velocity_centre (orient.h, line 167). -/
def uniformIndex (t0 dt q : ℚ) : ℤ := ratTrunc ((q - t0) / dt)

/-- struct SphOrient (orient.h, lines 52-83). The zero-time fit vectors
(length 3 in the populated table) are modelled as triples. -/
structure SphOrient where
  inertial : Bool
  eventime : Bool
  NUMT : ℕ
  time : List ℚ
  xcen : List ℚ
  ycen : List ℚ
  zcen : List ℚ
  ucen : List ℚ
  vcen : List ℚ
  wcen : List ℚ
  zerotimevelocities : ℚ × ℚ × ℚ
  zerotimeintercepts : ℚ × ℚ × ℚ
deriving DecidableEq

/-- The scan loop of find_time_index (orient.h, lines 89-92):
`indx = 0; while (time[indx] <= desired_time) indx++;`. The loop is given
fuel `time.length + 1 - i`; it stops at the first index whose stored time
exceeds the query, and returns none exactly when it reaches index
`time.length`, which in the C++ code is the out-of-bounds read
`time[NUMT]`. -/
def scan_from (time : List ℚ) (q : ℚ) : ℕ → ℕ → Option ℕ
  | _, 0 => none
  | i, fuel + 1 =>
    match time.get? i with
    | none => none
    | some t => if t ≤ q then scan_from time q (i + 1) fuel else some i

/-- The clamp sequence shared by find_time_index (orient.h, lines
100-101) and select_coefficient_time (sphcoefs.h, lines 60-61):
`if (indx < 0) indx = 0; if (indx > NUMT-2) indx = NUMT-2;`. -/
def clamp_index (NUMT : ℕ) (raw : ℤ) : ℤ :=
  let i1 : ℤ := if raw < 0 then 0 else raw
  if (NUMT : ℤ) - 2 < i1 then (NUMT : ℤ) - 2 else i1

/-- find_time_index (orient.h, lines 85-105). Returns the clamped index,
the local spacing `dt = time[indx+1] - time[indx]`, and the Bool recording
whether the high-end diagnostic `time after to simulation end` was printed
(checked on the pre-clamp index, line 98, before the clamps). There is no
low-end diagnostic in this function. none models an out-of-bounds
access, either by the scan loop or by the final spacing reads. -/
def find_time_index (q : ℚ) (o : SphOrient) : Option (ℤ × ℚ × Bool) := do
  let s ← scan_from o.time q 0 (o.time.length + 1)
  let warn : Bool := decide ((o.NUMT : ℤ) - 2 < (s : ℤ) - 1)
  let indx : ℤ := clamp_index o.NUMT ((s : ℤ) - 1)
  let t1 ← zGet o.time (indx + 1)
  let t0 ← zGet o.time indx
  pure (indx, t1 - t0, warn)

/-- interpolate_centre (orient.h, lines 108-154). `hv` is the global
`havevelocity` flag and `baccel` the global `backwardsaccel` flag. -/
def interpolate_centre (q : ℚ) (o : SphOrient) (hv baccel : Bool) :
    Option (ℚ × ℚ × ℚ) := do
  let r ←
    if o.eventime then do
      let t0 ← zGet o.time 0
      let t1 ← zGet o.time 1
      pure (uniformIndex t0 (t1 - t0) q, t1 - t0)
    else do
      let f ← find_time_index q o
      pure (f.1, f.2.1)
  let indx := r.1
  let dt := r.2
  if hv = true ∧ indx < 0 then do
    let t0 ← zGet o.time 0
    let x0 ← zGet o.xcen 0
    let y0 ← zGet o.ycen 0
    let z0 ← zGet o.zcen 0
    let dtime := q - t0
    if baccel = true then
      pure (x0 + dtime * (o.zerotimevelocities.1 * dtime + o.zerotimeintercepts.1),
            y0 + dtime * (o.zerotimevelocities.2.1 * dtime + o.zerotimeintercepts.2.1),
            z0 + dtime * (o.zerotimevelocities.2.2 * dtime + o.zerotimeintercepts.2.2))
    else
      pure (x0 + dtime * o.zerotimevelocities.1,
            y0 + dtime * o.zerotimevelocities.2.1,
            z0 + dtime * o.zerotimevelocities.2.2)
  else do
    let i := if (o.NUMT : ℤ) - 2 < indx then (o.NUMT : ℤ) - 2 else indx
    let ti1 ← zGet o.time (i + 1)
    let ti ← zGet o.time i
    let x1 := (ti1 - q) / dt
    let x2 := (q - ti) / dt
    let xa ← zGet o.xcen i
    let xb ← zGet o.xcen (i + 1)
    let ya ← zGet o.ycen i
    let yb ← zGet o.ycen (i + 1)
    let za ← zGet o.zcen i
    let zb ← zGet o.zcen (i + 1)
    pure (x1 * xa + x2 * xb, x1 * ya + x2 * yb, x1 * za + x2 * zb)

/-- interpolate_velocity_centre (orient.h, lines 156-199). The
pre-simulation branch is guarded by `indx < 0` alone (no havevelocity
check); `baccel` is the global `backwardsaccel` flag. -/
def interpolate_velocity_centre (q : ℚ) (o : SphOrient) (baccel : Bool) :
    Option (ℚ × ℚ × ℚ) := do
  let r ←
    if o.eventime then do
      let t0 ← zGet o.time 0
      let t1 ← zGet o.time 1
      pure (uniformIndex t0 (t1 - t0) q, t1 - t0)
    else do
      let f ← find_time_index q o
      pure (f.1, f.2.1)
  let indx := r.1
  let dt := r.2
  if indx < 0 then
    if baccel = true then do
      let t0 ← zGet o.time 0
      let dtime := q - t0
      pure (o.zerotimevelocities.1 * dtime + o.zerotimeintercepts.1,
            o.zerotimevelocities.2.1 * dtime + o.zerotimeintercepts.2.1,
            o.zerotimevelocities.2.2 * dtime + o.zerotimeintercepts.2.2)
    else
      pure (o.zerotimevelocities.1, o.zerotimevelocities.2.1,
            o.zerotimevelocities.2.2)
  else do
    let i := if (o.NUMT : ℤ) - 2 < indx then (o.NUMT : ℤ) - 2 else indx
    let ti1 ← zGet o.time (i + 1)
    let ti ← zGet o.time i
    let x1 := (ti1 - q) / dt
    let x2 := (q - ti) / dt
    let ua ← zGet o.ucen i
    let ub ← zGet o.ucen (i + 1)
    let va ← zGet o.vcen i
    let vb ← zGet o.vcen (i + 1)
    let wa ← zGet o.wcen i
    let wb ← zGet o.wcen (i + 1)
    pure (x1 * ua + x2 * ub, x1 * va + x2 * vb, x1 * wa + x2 * wb)

/-- return_centre (orient.h, lines 222-244), in the default non-spline
build: an inertial table yields the origin without touching any series. -/
def return_centre (q : ℚ) (o : SphOrient) (hv baccel : Bool) :
    Option (ℚ × ℚ × ℚ) :=
  if o.inertial = true then some (0, 0, 0)
  else interpolate_centre q o hv baccel

/-- return_vel_centre (orient.h, lines 246-266), non-spline build. -/
def return_vel_centre (q : ℚ) (o : SphOrient) (baccel : Bool) :
    Option (ℚ × ℚ × ℚ) :=
  if o.inertial = true then some (0, 0, 0)
  else interpolate_velocity_centre q o baccel

/-- The running sums of the regression loop of find_initial_velocity
(orient.h, lines 294-303). -/
structure FitSums where
  sumT : ℚ
  sumX : ℚ
  sumY : ℚ
  sumZ : ℚ
  sumTX : ℚ
  sumTY : ℚ
  sumTZ : ℚ
  sumT2 : ℚ
deriving DecidableEq

/-- The loop `for (i = 0; i < nPoints; i++)` of find_initial_velocity:
accumulate the eight sums over the first `n` samples; none models the
first out-of-bounds access when a series is shorter than `n`. -/
def fit_sums (time xs ys zs : List ℚ) : ℕ → Option FitSums
  | 0 => some ⟨0, 0, 0, 0, 0, 0, 0, 0⟩
  | n + 1 => do
    let s ← fit_sums time xs ys zs n
    let t ← time.get? n
    let x ← xs.get? n
    let y ← ys.get? n
    let z ← zs.get? n
    pure ⟨s.sumT + t, s.sumX + x, s.sumY + y, s.sumZ + z,
          s.sumTX + t * x, s.sumTY + t * y, s.sumTZ + t * z,
          s.sumT2 + t * t⟩

/-- Failure modes of find_initial_velocity: the fatal exit(-1) on a
degenerate regression denominator, or an out-of-bounds read of one of the
summed series. -/
inductive FitError
  | configError
  | oobRead
deriving DecidableEq

/-- find_initial_velocity (orient.h, lines 268-328): ordinary least
squares of the chosen channel (velocity series when `accel`, else the
position series) against time over the leading `nPoints` samples. -/
def find_initial_velocity (o : SphOrient) (accel : Bool) (nPoints : ℕ) :
    Except FitError SphOrient :=
  let xterm := if accel = true then o.ucen else o.xcen
  let yterm := if accel = true then o.vcen else o.ycen
  let zterm := if accel = true then o.wcen else o.zcen
  match fit_sums o.time xterm yterm zterm nPoints with
  | none => .error .oobRead
  | some s =>
    let tMean := s.sumT / (nPoints : ℚ)
    let xMean := s.sumX / (nPoints : ℚ)
    let yMean := s.sumY / (nPoints : ℚ)
    let zMean := s.sumZ / (nPoints : ℚ)
    let denominator := s.sumT2 - s.sumT * tMean
    if |denominator| < 1 / 10000000 then .error .configError
    else
      let sx := (s.sumTX - s.sumT * xMean) / denominator
      let sy := (s.sumTY - s.sumT * yMean) / denominator
      let sz := (s.sumTZ - s.sumT * zMean) / denominator
      .ok { o with
            zerotimevelocities := (sx, sy, sz),
            zerotimeintercepts :=
              if accel = true then
                (xMean - sx * tMean, yMean - sy * tMean, zMean - sz * tMean)
              else o.zerotimeintercepts }

/-- One parsed data line of the text orientation file:
`time xcen ycen zcen [ucen vcen wcen]`. -/
structure OrientRow where
  t : ℚ
  x : ℚ
  y : ℚ
  z : ℚ
  u : ℚ
  v : ℚ
  w : ℚ
deriving DecidableEq

/-- A parsed orientation file: the declared sample count from line 1 and
the data rows. -/
structure OrientFile where
  NUMT : ℕ
  rows : List OrientRow
deriving DecidableEq

/-- The parse loop of read_orient: the series are resized to NUMT
(vector entries default to 0) and entry i is assigned from data line i. -/
def parse_series (fd : OrientFile) (f : OrientRow → ℚ) : List ℚ :=
  (List.range fd.NUMT).map fun i => ((fd.rows.get? i).map f).getD 0

/-- The spacing-consistency check of read_orient (orient.h, lines
392-399): starting from the incoming flag (true in a fresh table), the
flag is cleared when any consecutive spacing deviates from
`dt = time[1] - time[0]` by more than `dt/10`, for i = 2 .. NUMT-1. -/
def compute_eventime (time : List ℚ) (init : Bool) (NUMT : ℕ) : Bool :=
  let dt := time.getD 1 0 - time.getD 0 0
  init && (List.range' 2 (NUMT - 2)).all fun i =>
    decide (|time.getD i 0 - time.getD (i - 1) 0 - dt| ≤ dt / 10)

/-- The table produced by the parsing part of read_orient for a
successfully opened file: series populated, inertial cleared, eventime
recomputed. The velocity series are only resized/assigned when the
`havevelocity` flag is set. -/
def loaded_table (fd : OrientFile) (hv : Bool) (o : SphOrient) : SphOrient :=
  let o1 : SphOrient :=
    { o with
      inertial := false
      NUMT := fd.NUMT
      time := parse_series fd (fun r => r.t)
      xcen := parse_series fd (fun r => r.x)
      ycen := parse_series fd (fun r => r.y)
      zcen := parse_series fd (fun r => r.z)
      ucen := if hv = true then parse_series fd (fun r => r.u) else o.ucen
      vcen := if hv = true then parse_series fd (fun r => r.v) else o.vcen
      wcen := if hv = true then parse_series fd (fun r => r.w) else o.wcen }
  { o1 with eventime := compute_eventime o1.time o1.eventime o1.NUMT }

/-- Failure modes of read_orient: the fatal exit(1) when a nonempty path
cannot be opened, or a fatal find_initial_velocity failure. -/
inductive LoadError
  | ioError
  | fitError (e : FitError)
deriving DecidableEq

/-- read_orient (orient.h, lines 331-443), non-spline build. `file` is
the opened file contents (none = the open failed). An empty path returns
the table untouched (inertial default). With velocity data, the zero-time
slopes are the regression fit when `backwards` is set (with the intercept
fit in `baccel` mode, nPoints left at its default 2000), else the stored
t=0 velocity sample. -/
def read_orient (orient_file : String) (file : Option OrientFile)
    (hv backwards baccel : Bool) (o : SphOrient) :
    Except LoadError SphOrient :=
  if orient_file = "" then .ok o
  else
    match file with
    | none => .error .ioError
    | some fd =>
      let o2 := loaded_table fd hv o
      if hv = true then
        if backwards = true then
          match find_initial_velocity o2 baccel 2000 with
          | .error e => .error (.fitError e)
          | .ok o3 => .ok o3
        else
          .ok { o2 with
                zerotimevelocities :=
                  (o2.ucen.getD 0 0, o2.vcen.getD 0 0, o2.wcen.getD 0 0) }
      else .ok o2

/-- struct SphCoefs (sphcoefs.h, lines 29-41): the dense coefficient grid
indexed time, harmonic, radial. -/
structure SphCoefs where
  LMAX : ℕ
  NMAX : ℕ
  NUMT : ℕ
  t : List ℚ
  coefs : List (List (List ℚ))
deriving DecidableEq

/-- Time-axis access of the coefficient table (boost array reads are in
bounds for the claims considered, which all assume NUMT at least 2). -/
def tAt (c : SphCoefs) (i : ℕ) : ℚ := c.t.getD i 0

/-- Grid access `coefs[ti][l][n]`. -/
def cAt (c : SphCoefs) (ti l n : ℕ) : ℚ :=
  ((c.coefs.getD ti []).getD l []).getD n 0

/-- The index-resolution part of select_coefficient_time (sphcoefs.h,
lines 52-61): the uniform-policy pre-clamp index, the two clamps, and the
two diagnostics (`time prior to simulation start` iff the pre-clamp index
is negative, `time after to simulation end` iff it exceeds NUMT-2). -/
def select_coef_index (q : ℚ) (c : SphCoefs) : ℤ × Bool × Bool :=
  let dt := tAt c 1 - tAt c 0
  let raw := uniformIndex (tAt c 0) dt q
  let warnLow : Bool := decide (raw < 0)
  let warnHigh : Bool := decide ((c.NUMT : ℤ) - 2 < raw)
  (clamp_index c.NUMT raw, warnLow, warnHigh)

/-- select_coefficient_time (sphcoefs.h, lines 44-79): linear blend of
the two bracketing grid slices with weights `x1 = (t[indx+1]-q)/dt`,
`x2 = (q-t[indx])/dt`, returned together with the two diagnostics. -/
def select_coefficient_time (q : ℚ) (c : SphCoefs) :
    List (List ℚ) × Bool × Bool :=
  let dt := tAt c 1 - tAt c 0
  let r := select_coef_index q c
  let indx := r.1
  let x1 := (tAt c (indx + 1).toNat - q) / dt
  let x2 := (q - tAt c indx.toNat) / dt
  let numl := (c.LMAX + 1) * (c.LMAX + 1)
  (((List.range numl).map fun l =>
      (List.range c.NMAX).map fun n =>
        x1 * cAt c indx.toNat l n + x2 * cAt c (indx + 1).toNat l n),
   r.2.1, r.2.2)

/-- A freshly constructed SphOrient before any load: inertial, assumed
evenly spaced, no series stored. -/
def default_orient : SphOrient :=
  ⟨true, true, 0, [], [], [], [], [], [], [], (0, 0, 0), (0, 0, 0)⟩

/-- A populated orientation table on the time axis [0,1,2] with centre
series [0,10,20] on each axis, velocity series [7,7,7], and zero-time fit
parameters slope (1,2,3), intercept (4,5,6). -/
def orient3 : SphOrient :=
  ⟨false, true, 3, [0, 1, 2], [0, 10, 20], [0, 10, 20], [0, 10, 20],
   [7, 7, 7], [7, 7, 7], [7, 7, 7], (1, 2, 3), (4, 5, 6)⟩

/-- A coefficient table with NUMT=3, one harmonic, one radial order, time
axis [0,1,2] and per-series values [0,10,20]. -/
def coef3 : SphCoefs :=
  ⟨0, 1, 3, [0, 1, 2], [[[0]], [[10]], [[20]]]⟩

/-- An orientation table whose two stored times coincide (t = 1 twice):
the regression time-variance denominator over the leading two samples is
exactly zero. -/
def degenerate_orient : SphOrient :=
  ⟨false, true, 2, [1, 1], [2, 3], [2, 3], [2, 3], [0, 0], [0, 0], [0, 0],
   (0, 0, 0), (0, 0, 0)⟩

/-- A parsed orientation file with two data lines, both at time 1. -/
def degenerate_file : OrientFile :=
  ⟨2, [⟨1, 2, 2, 2, 0, 0, 0⟩, ⟨1, 3, 3, 3, 0, 0, 0⟩]⟩

/-- A parsed orientation file on the uneven time axis [0, 1, 5/2]. -/
def uneven_file : OrientFile :=
  ⟨3, [⟨0, 0, 0, 0, 0, 0, 0⟩, ⟨1, 0, 0, 0, 0, 0, 0⟩,
       ⟨5/2, 0, 0, 0, 0, 0, 0⟩]⟩

/-- A parsed orientation file on the even time axis [0, 1, 2, 3]. -/
def even_file : OrientFile :=
  ⟨4, [⟨0, 0, 0, 0, 0, 0, 0⟩, ⟨1, 0, 0, 0, 0, 0, 0⟩,
       ⟨2, 0, 0, 0, 0, 0, 0⟩, ⟨3, 0, 0, 0, 0, 0, 0⟩]⟩

/-- Truncation toward zero agrees with floor on nonnegative arguments. -/
lemma ratTrunc_of_nonneg (x : ℚ) (h : 0 ≤ x) : ratTrunc x = ⌊x⌋ := by
  simp [ratTrunc, h]

/-- Truncation toward zero agrees with ceiling on negative arguments. -/
lemma ratTrunc_of_neg (x : ℚ) (h : x < 0) : ratTrunc x = ⌈x⌉ := by
  simp only [ratTrunc]
  rw [if_neg (not_le.mpr h)]

/-- The truncated uniform index is negative once the quotient is at most -1. -/
lemma uniformIndex_neg_of_le (t0 dt q : ℚ) (h : (q - t0) / dt ≤ -1) :
    uniformIndex t0 dt q < 0 := by
  have hneg : (q - t0) / dt < 0 := lt_of_le_of_lt h (by norm_num)
  rw [uniformIndex, ratTrunc_of_neg _ hneg]
  have hc : ⌈(q - t0) / dt⌉ ≤ -1 := by
    rw [Int.ceil_le]
    push_cast
    exact h
  omega

/-- C10: if the orientation file path is empty, read_orient leaves the
table inertial and untouched, and every query on an inertial table yields
centre (0,0,0) and velocity (0,0,0) without touching any stored series. -/
theorem C10_inertial_default (fd : Option OrientFile) (hv b ba : Bool)
    (o : SphOrient) (q : ℚ) (h : o.inertial = true) :
    read_orient "" fd hv b ba o = .ok o ∧
    return_centre q o hv ba = some (0, 0, 0) ∧
    return_vel_centre q o ba = some (0, 0, 0) := by
  refine ⟨by simp [read_orient], ?_, ?_⟩ <;>
    simp [return_centre, return_vel_centre, h]

/-- Closed instance of C10 at the freshly constructed table and q = 5. -/
theorem C10_inertial_default_witness :
    default_orient.inertial = true ∧
    (read_orient "" none true false false default_orient = .ok default_orient ∧
     return_centre 5 default_orient true false = some (0, 0, 0) ∧
     return_vel_centre 5 default_orient false = some (0, 0, 0)) :=
  ⟨rfl, C10_inertial_default none true false false default_orient 5 rfl⟩

/-- C3 counterexample: on the coefficient table coef3 (axis [0,1,2]) at
q = -1/2 the quotient (q - T[0])/dt = -1/2 lies in (-1,0), but the
uniform-policy pre-clamp index is 0 (truncation toward zero), not the
floor value -1; consequently the low-range diagnostic is not raised. -/
theorem C3_counterexample :
    (-1 : ℚ) < (-1/2 - tAt coef3 0) / (tAt coef3 1 - tAt coef3 0) ∧
    (-1/2 - tAt coef3 0) / (tAt coef3 1 - tAt coef3 0) < 0 ∧
    uniformIndex (tAt coef3 0) (tAt coef3 1 - tAt coef3 0) (-1/2) ≠ -1 ∧
    uniformIndex (tAt coef3 0) (tAt coef3 1 - tAt coef3 0) (-1/2) = 0 ∧
    (select_coef_index (-1/2) coef3).2.1 = false := by
  have h0 : tAt coef3 0 = 0 := rfl
  have h1 : tAt coef3 1 = 1 := rfl
  have hceil : ⌈(-(1/2) : ℚ)⌉ = 0 := by
    rw [Int.ceil_eq_iff]
    norm_num
  refine ⟨by rw [h0, h1]; norm_num, by rw [h0, h1]; norm_num, ?_, ?_, ?_⟩ <;>
    norm_num [select_coef_index, uniformIndex, ratTrunc, h0, h1, hceil]

/-- C3 amended: the uniform-policy resolver computes the pre-clamp index
by C truncation toward zero, which is the ceiling (not the floor) of the
quotient when the quotient is negative; in particular for every query with
-1 < (q - T[0])/dt < 0 the computed index is 0 while the floor is -1. -/
theorem C3_trunc_amended (t0 dt q : ℚ) (h1 : -1 < (q - t0) / dt)
    (h2 : (q - t0) / dt < 0) :
    uniformIndex t0 dt q = 0 ∧
    uniformIndex t0 dt q = ⌈(q - t0) / dt⌉ ∧
    ⌊(q - t0) / dt⌋ = -1 := by
  have hc : ⌈(q - t0) / dt⌉ = 0 := by
    rw [Int.ceil_eq_iff]
    constructor
    · push_cast
      linarith
    · exact le_of_lt h2
  have hf : ⌊(q - t0) / dt⌋ = -1 := by
    rw [Int.floor_eq_iff]
    constructor
    · push_cast
      linarith
    · push_cast
      linarith
  exact ⟨by rw [uniformIndex, ratTrunc_of_neg _ h2, hc],
         by rw [uniformIndex, ratTrunc_of_neg _ h2], hf⟩

/-- Closed instance of C3 amended at t0 = 0, dt = 1, q = -1/2. -/
theorem C3_trunc_amended_witness :
    ((-1 : ℚ) < ((-1/2 : ℚ) - 0) / 1 ∧ ((-1/2 : ℚ) - 0) / 1 < 0) ∧
    (uniformIndex 0 1 (-1/2) = 0 ∧
     uniformIndex 0 1 (-1/2) = ⌈((-1/2 : ℚ) - 0) / 1⌉ ∧
     ⌊((-1/2 : ℚ) - 0) / 1⌋ = -1) :=
  ⟨⟨by norm_num, by norm_num⟩,
   C3_trunc_amended 0 1 (-1/2) (by norm_num) (by norm_num)⟩


/-- Evaluation of interpolate_centre in the pre-simulation branch,
non-acceleration mode: eventime table, velocity data available, negative
truncated index. -/
lemma interpolate_centre_presim (q : ℚ) (o : SphOrient) (t0 t1 x0 y0 z0 : ℚ)
    (he : o.eventime = true)
    (h0 : zGet o.time 0 = some t0) (h1 : zGet o.time 1 = some t1)
    (hx : zGet o.xcen 0 = some x0) (hy : zGet o.ycen 0 = some y0)
    (hz : zGet o.zcen 0 = some z0)
    (hneg : uniformIndex t0 (t1 - t0) q < 0) :
    interpolate_centre q o true false =
      some (x0 + (q - t0) * o.zerotimevelocities.1,
            y0 + (q - t0) * o.zerotimevelocities.2.1,
            z0 + (q - t0) * o.zerotimevelocities.2.2) := by
  simp only [interpolate_centre, he, if_true, ite_true, h0, h1, hx, hy, hz,
    Option.bind_eq_bind, Option.some_bind, hneg, and_self, true_and,
    eq_self_iff_true, if_false, ite_false, Option.pure_def,
    Bool.false_eq_true]

/-- Evaluation of interpolate_centre in the pre-simulation branch,
acceleration mode. -/
lemma interpolate_centre_presim_accel (q : ℚ) (o : SphOrient)
    (t0 t1 x0 y0 z0 : ℚ)
    (he : o.eventime = true)
    (h0 : zGet o.time 0 = some t0) (h1 : zGet o.time 1 = some t1)
    (hx : zGet o.xcen 0 = some x0) (hy : zGet o.ycen 0 = some y0)
    (hz : zGet o.zcen 0 = some z0)
    (hneg : uniformIndex t0 (t1 - t0) q < 0) :
    interpolate_centre q o true true =
      some (x0 + (q - t0) * (o.zerotimevelocities.1 * (q - t0) + o.zerotimeintercepts.1),
            y0 + (q - t0) * (o.zerotimevelocities.2.1 * (q - t0) + o.zerotimeintercepts.2.1),
            z0 + (q - t0) * (o.zerotimevelocities.2.2 * (q - t0) + o.zerotimeintercepts.2.2)) := by
  simp only [interpolate_centre, he, if_true, ite_true, h0, h1, hx, hy, hz,
    Option.bind_eq_bind, Option.some_bind, hneg, and_self, true_and,
    eq_self_iff_true, if_false, ite_false, Option.pure_def,
    Bool.false_eq_true]

/-- Evaluation of interpolate_velocity_centre in the pre-simulation
branch, non-acceleration mode: the constant zero-time slope. -/
lemma interpolate_velocity_centre_presim (q : ℚ) (o : SphOrient)
    (t0 t1 : ℚ) (he : o.eventime = true)
    (h0 : zGet o.time 0 = some t0) (h1 : zGet o.time 1 = some t1)
    (hneg : uniformIndex t0 (t1 - t0) q < 0) :
    interpolate_velocity_centre q o false =
      some (o.zerotimevelocities.1, o.zerotimevelocities.2.1,
            o.zerotimevelocities.2.2) := by
  simp only [interpolate_velocity_centre, he, if_true, ite_true, h0, h1,
    Option.bind_eq_bind, Option.some_bind, hneg, and_self, true_and,
    eq_self_iff_true, if_false, ite_false, Option.pure_def,
    Bool.false_eq_true]

/-- Evaluation of interpolate_velocity_centre in the pre-simulation
branch, acceleration mode: the affine zero-time model. -/
lemma interpolate_velocity_centre_presim_accel (q : ℚ) (o : SphOrient)
    (t0 t1 : ℚ) (he : o.eventime = true)
    (h0 : zGet o.time 0 = some t0) (h1 : zGet o.time 1 = some t1)
    (hneg : uniformIndex t0 (t1 - t0) q < 0) :
    interpolate_velocity_centre q o true =
      some (o.zerotimevelocities.1 * (q - t0) + o.zerotimeintercepts.1,
            o.zerotimevelocities.2.1 * (q - t0) + o.zerotimeintercepts.2.1,
            o.zerotimevelocities.2.2 * (q - t0) + o.zerotimeintercepts.2.2) := by
  simp only [interpolate_velocity_centre, he, if_true, ite_true, h0, h1,
    Option.bind_eq_bind, Option.some_bind, hneg, and_self, true_and,
    eq_self_iff_true, if_false, ite_false, Option.pure_def,
    Bool.false_eq_true]

/-- Evaluation of interpolate_centre in the standard (weight-machinery)
branch on an eventime table. -/
lemma interpolate_centre_std (q : ℚ) (o : SphOrient) (hv baccel : Bool)
    (t0 t1 : ℚ) (indx i : ℤ) (ti ti1 xa xb ya yb za zb : ℚ)
    (he : o.eventime = true)
    (h0 : zGet o.time 0 = some t0) (h1 : zGet o.time 1 = some t1)
    (hidx : uniformIndex t0 (t1 - t0) q = indx)
    (hcond : ¬(hv = true ∧ indx < 0))
    (hi : i = if (o.NUMT : ℤ) - 2 < indx then (o.NUMT : ℤ) - 2 else indx)
    (hti1 : zGet o.time (i + 1) = some ti1) (hti : zGet o.time i = some ti)
    (hxa : zGet o.xcen i = some xa) (hxb : zGet o.xcen (i + 1) = some xb)
    (hya : zGet o.ycen i = some ya) (hyb : zGet o.ycen (i + 1) = some yb)
    (hza : zGet o.zcen i = some za) (hzb : zGet o.zcen (i + 1) = some zb) :
    interpolate_centre q o hv baccel =
      some ((ti1 - q) / (t1 - t0) * xa + (q - ti) / (t1 - t0) * xb,
            (ti1 - q) / (t1 - t0) * ya + (q - ti) / (t1 - t0) * yb,
            (ti1 - q) / (t1 - t0) * za + (q - ti) / (t1 - t0) * zb) := by
  subst hi
  simp only [interpolate_centre, he, if_true, ite_true, h0, h1, hidx, hcond,
    hti1, hti, hxa, hxb, hya, hyb, hza, hzb, Option.bind_eq_bind,
    Option.some_bind, if_false, ite_false, Option.pure_def, and_self,
    true_and, eq_self_iff_true, Bool.false_eq_true]

/-- Evaluation of interpolate_velocity_centre in the standard branch on
an eventime table. -/
lemma interpolate_velocity_centre_std (q : ℚ) (o : SphOrient)
    (baccel : Bool) (t0 t1 : ℚ) (indx i : ℤ)
    (ti ti1 ua ub va vb wa wb : ℚ)
    (he : o.eventime = true)
    (h0 : zGet o.time 0 = some t0) (h1 : zGet o.time 1 = some t1)
    (hidx : uniformIndex t0 (t1 - t0) q = indx)
    (hcond : ¬(indx < 0))
    (hi : i = if (o.NUMT : ℤ) - 2 < indx then (o.NUMT : ℤ) - 2 else indx)
    (hti1 : zGet o.time (i + 1) = some ti1) (hti : zGet o.time i = some ti)
    (hua : zGet o.ucen i = some ua) (hub : zGet o.ucen (i + 1) = some ub)
    (hva : zGet o.vcen i = some va) (hvb : zGet o.vcen (i + 1) = some vb)
    (hwa : zGet o.wcen i = some wa) (hwb : zGet o.wcen (i + 1) = some wb) :
    interpolate_velocity_centre q o baccel =
      some ((ti1 - q) / (t1 - t0) * ua + (q - ti) / (t1 - t0) * ub,
            (ti1 - q) / (t1 - t0) * va + (q - ti) / (t1 - t0) * vb,
            (ti1 - q) / (t1 - t0) * wa + (q - ti) / (t1 - t0) * wb) := by
  subst hi
  simp only [interpolate_velocity_centre, he, if_true, ite_true, h0, h1,
    hidx, hcond, hti1, hti, hua, hub, hva, hvb, hwa, hwb,
    Option.bind_eq_bind, Option.some_bind, if_false, ite_false,
    Option.pure_def, and_self, true_and, eq_self_iff_true,
    Bool.false_eq_true]

/-- The truncated uniform index of orient3 and coef3 queries used below:
(q - 0)/(1 - 0) truncated toward zero. -/
lemma uniformIndex_eval_m1 : uniformIndex 0 (1 - 0) (-1 : ℚ) = -1 := by
  have ha : ((-1 : ℚ) - 0) / (1 - 0) = -1 := by norm_num
  rw [uniformIndex, ha, ratTrunc_of_neg _ (by norm_num)]
  rw [Int.ceil_eq_iff]
  norm_num

/-- Truncated uniform index at q = -1/2 on the unit-spacing axis: 0. -/
lemma uniformIndex_eval_mhalf : uniformIndex 0 (1 - 0) (-1/2 : ℚ) = 0 := by
  have ha : ((-1/2 : ℚ) - 0) / (1 - 0) = -(1/2) := by norm_num
  rw [uniformIndex, ha, ratTrunc_of_neg _ (by norm_num)]
  rw [Int.ceil_eq_iff]
  norm_num

/-- Truncated uniform index at q = 3 on the unit-spacing axis: 3. -/
lemma uniformIndex_eval_3 : uniformIndex 0 (1 - 0) (3 : ℚ) = 3 := by
  have ha : ((3 : ℚ) - 0) / (1 - 0) = 3 := by norm_num
  rw [uniformIndex, ha, ratTrunc_of_nonneg _ (by norm_num)]
  norm_num

/-- C1 counterexample: q = -1/2 precedes the first stored time 0 of the
eventime table orient3 and velocity data is available, yet the truncated
index is 0, so interpolate_centre runs the standard weight machinery
(giving (-5,-5,-5), a boundary-slope extrapolation) instead of the claimed
zero-time model cen[0] + Δt·slope = (-1/2,-1,-3/2), and
interpolate_velocity_centre interpolates the stored velocity series
(giving (7,7,7)) instead of returning the constant slope (1,2,3). -/
theorem C1_counterexample :
    (-1/2 : ℚ) < orient3.time.getD 0 0 ∧
    interpolate_centre (-1/2) orient3 true false = some (-5, -5, -5) ∧
    (orient3.xcen.getD 0 0 + ((-1/2 : ℚ) - orient3.time.getD 0 0) *
        orient3.zerotimevelocities.1,
     orient3.ycen.getD 0 0 + ((-1/2 : ℚ) - orient3.time.getD 0 0) *
        orient3.zerotimevelocities.2.1,
     orient3.zcen.getD 0 0 + ((-1/2 : ℚ) - orient3.time.getD 0 0) *
        orient3.zerotimevelocities.2.2) = ((-1/2 : ℚ), -1, -3/2) ∧
    some ((-5 : ℚ), (-5 : ℚ), (-5 : ℚ)) ≠
      some ((-1/2 : ℚ), (-1 : ℚ), (-3/2 : ℚ)) ∧
    interpolate_velocity_centre (-1/2) orient3 false = some (7, 7, 7) ∧
    some ((7 : ℚ), (7 : ℚ), (7 : ℚ)) ≠
      some (orient3.zerotimevelocities.1, orient3.zerotimevelocities.2.1,
            orient3.zerotimevelocities.2.2) := by
  have ht0 : orient3.time.getD 0 0 = 0 := rfl
  have hx0 : orient3.xcen.getD 0 0 = 0 := rfl
  have hy0 : orient3.ycen.getD 0 0 = 0 := rfl
  have hz0 : orient3.zcen.getD 0 0 = 0 := rfl
  have hzv : orient3.zerotimevelocities = (1, 2, 3) := rfl
  refine ⟨by rw [ht0]; norm_num, ?_, ?_, ?_, ?_, ?_⟩
  · have h := interpolate_centre_std (-1/2) orient3 true false 0 1 0 0 0 1
      0 10 0 10 0 10 rfl rfl rfl uniformIndex_eval_mhalf (by decide)
      (by decide) rfl rfl rfl rfl rfl rfl rfl rfl
    rw [h]
    norm_num
  · rw [ht0, hx0, hy0, hz0, hzv]
    norm_num
  · simp only [ne_eq, Option.some.injEq, Prod.mk.injEq, not_and]
    norm_num
  · have h := interpolate_velocity_centre_std (-1/2) orient3 false 0 1 0 0
      0 1 7 7 7 7 7 7 rfl rfl rfl uniformIndex_eval_mhalf (by decide)
      (by decide) rfl rfl rfl rfl rfl rfl rfl rfl
    rw [h]
    norm_num
  · rw [hzv]
    simp only [ne_eq, Option.some.injEq, Prod.mk.injEq, not_and]
    norm_num

/-- C1 amended: on an eventime table with velocity data available, the
pre-simulation zero-time model is used exactly when the truncated uniform
index (q - T[0])/dt is negative (so when the quotient is at most -1, not
for every q < T[0]): there interpolate_centre returns
cen[0] + Δt·zeroTimeSlope (non-acceleration) or the quadratic
cen[0] + Δt·(zeroTimeSlope·Δt + zeroTimeIntercept) (acceleration), and
interpolate_velocity_centre returns the constant zeroTimeSlope
(non-acceleration) or zeroTimeSlope·Δt + zeroTimeIntercept. -/
theorem C1_zero_time_amended (o : SphOrient) (q t0 t1 : ℚ)
    (ts xs ys zs : List ℚ) (x0 y0 z0 : ℚ)
    (he : o.eventime = true)
    (ht : o.time = t0 :: t1 :: ts)
    (hx : o.xcen = x0 :: xs) (hy : o.ycen = y0 :: ys) (hz : o.zcen = z0 :: zs)
    (hidx : uniformIndex t0 (t1 - t0) q < 0) :
    interpolate_centre q o true false =
      some (x0 + (q - t0) * o.zerotimevelocities.1,
            y0 + (q - t0) * o.zerotimevelocities.2.1,
            z0 + (q - t0) * o.zerotimevelocities.2.2) ∧
    interpolate_centre q o true true =
      some (x0 + (q - t0) * (o.zerotimevelocities.1 * (q - t0) + o.zerotimeintercepts.1),
            y0 + (q - t0) * (o.zerotimevelocities.2.1 * (q - t0) + o.zerotimeintercepts.2.1),
            z0 + (q - t0) * (o.zerotimevelocities.2.2 * (q - t0) + o.zerotimeintercepts.2.2)) ∧
    interpolate_velocity_centre q o false =
      some (o.zerotimevelocities.1, o.zerotimevelocities.2.1,
            o.zerotimevelocities.2.2) ∧
    interpolate_velocity_centre q o true =
      some (o.zerotimevelocities.1 * (q - t0) + o.zerotimeintercepts.1,
            o.zerotimevelocities.2.1 * (q - t0) + o.zerotimeintercepts.2.1,
            o.zerotimevelocities.2.2 * (q - t0) + o.zerotimeintercepts.2.2) := by
  have h0 : zGet o.time 0 = some t0 := by rw [ht]; rfl
  have h1 : zGet o.time 1 = some t1 := by rw [ht]; rfl
  have hxg : zGet o.xcen 0 = some x0 := by rw [hx]; rfl
  have hyg : zGet o.ycen 0 = some y0 := by rw [hy]; rfl
  have hzg : zGet o.zcen 0 = some z0 := by rw [hz]; rfl
  exact ⟨interpolate_centre_presim q o t0 t1 x0 y0 z0 he h0 h1 hxg hyg hzg hidx,
         interpolate_centre_presim_accel q o t0 t1 x0 y0 z0 he h0 h1 hxg hyg hzg hidx,
         interpolate_velocity_centre_presim q o t0 t1 he h0 h1 hidx,
         interpolate_velocity_centre_presim_accel q o t0 t1 he h0 h1 hidx⟩

/-- Closed instance of C1 amended on orient3 at q = -2 (quotient -2). -/
theorem C1_zero_time_amended_witness :
    (orient3.eventime = true ∧ uniformIndex 0 (1 - 0) (-2 : ℚ) < 0) ∧
    (interpolate_centre (-2) orient3 true false =
      some (0 + ((-2 : ℚ) - 0) * orient3.zerotimevelocities.1,
            0 + ((-2 : ℚ) - 0) * orient3.zerotimevelocities.2.1,
            0 + ((-2 : ℚ) - 0) * orient3.zerotimevelocities.2.2) ∧
    interpolate_centre (-2) orient3 true true =
      some (0 + ((-2 : ℚ) - 0) * (orient3.zerotimevelocities.1 * ((-2 : ℚ) - 0) + orient3.zerotimeintercepts.1),
            0 + ((-2 : ℚ) - 0) * (orient3.zerotimevelocities.2.1 * ((-2 : ℚ) - 0) + orient3.zerotimeintercepts.2.1),
            0 + ((-2 : ℚ) - 0) * (orient3.zerotimevelocities.2.2 * ((-2 : ℚ) - 0) + orient3.zerotimeintercepts.2.2)) ∧
    interpolate_velocity_centre (-2) orient3 false =
      some (orient3.zerotimevelocities.1, orient3.zerotimevelocities.2.1,
            orient3.zerotimevelocities.2.2) ∧
    interpolate_velocity_centre (-2) orient3 true =
      some (orient3.zerotimevelocities.1 * ((-2 : ℚ) - 0) + orient3.zerotimeintercepts.1,
            orient3.zerotimevelocities.2.1 * ((-2 : ℚ) - 0) + orient3.zerotimeintercepts.2.1,
            orient3.zerotimevelocities.2.2 * ((-2 : ℚ) - 0) + orient3.zerotimeintercepts.2.2)) :=
  ⟨⟨rfl, uniformIndex_neg_of_le 0 (1 - 0) (-2) (by norm_num)⟩,
   C1_zero_time_amended orient3 (-2) 0 1 [2] [10, 20] [10, 20] [10, 20]
     0 0 0 rfl rfl rfl rfl rfl
     (uniformIndex_neg_of_le 0 (1 - 0) (-2) (by norm_num))⟩

/-- The index-resolution of coef3 at q = -1: pre-clamp index -1, low
diagnostic raised, clamped to 0. -/
lemma select_coef_index_coef3_m1 :
    select_coef_index (-1) coef3 = (0, true, false) := by
  have ha : tAt coef3 0 = 0 := rfl
  have hb : tAt coef3 1 = 1 := rfl
  simp only [select_coef_index, ha, hb, uniformIndex_eval_m1]
  decide

/-- The index-resolution of coef3 at q = 3: pre-clamp index 3, high
diagnostic raised, clamped to 1. -/
lemma select_coef_index_coef3_3 :
    select_coef_index 3 coef3 = (1, false, true) := by
  have ha : tAt coef3 0 = 0 := rfl
  have hb : tAt coef3 1 = 1 := rfl
  simp only [select_coef_index, ha, hb, uniformIndex_eval_3]
  decide

/-- C5 counterexample: on the axis [0,1,2] with centre values [0,10,20]
and velocity data present (the build default), the orientation centre
evaluator at q = -1 takes the pre-simulation branch and returns
cen[0] + Δt·zeroTimeSlope = (-1,-2,-3), not the boundary-slope value
(-10,-10,-10) asserted by the claim. -/
theorem C5_counterexample :
    interpolate_centre (-1) orient3 true false = some (-1, -2, -3) ∧
    some ((-1 : ℚ), (-2 : ℚ), (-3 : ℚ)) ≠
      some ((-10 : ℚ), (-10 : ℚ), (-10 : ℚ)) := by
  constructor
  · have h := interpolate_centre_presim (-1) orient3 0 1 0 0 0 rfl rfl rfl
      rfl rfl rfl (by rw [uniformIndex_eval_m1]; norm_num)
    rw [h]
    norm_num [show orient3.zerotimevelocities = (1, 2, 3) from rfl]
  · simp only [ne_eq, Option.some.injEq, Prod.mk.injEq, not_and]
    norm_num

/-- C5 amended: the coefficient-table evaluator extrapolates along the
boundary segment slope at both ends of the axis [0,1,2] with values
[0,10,20] (q = -1 gives -10, q = 3 gives 30); the orientation centre
evaluator does so only above the stored domain (q = 3 gives 30 on each
axis); at q = -1, velocity data being present, it instead returns the
pre-simulation model cen[0] + Δt·zeroTimeSlope. -/
theorem C5_boundary_amended :
    (select_coefficient_time (-1) coef3).1 = [[-10]] ∧
    (select_coefficient_time 3 coef3).1 = [[30]] ∧
    interpolate_centre 3 orient3 true false = some (30, 30, 30) ∧
    interpolate_centre (-1) orient3 true false = some (-1, -2, -3) := by
  have hr1 : List.range ((coef3.LMAX + 1) * (coef3.LMAX + 1)) = [0] := rfl
  have hr2 : List.range coef3.NMAX = [0] := rfl
  have ha0 : tAt coef3 0 = 0 := rfl
  have ha1 : tAt coef3 1 = 1 := rfl
  refine ⟨?_, ?_, ?_, ?_⟩
  · have hta : tAt coef3 ((0 : ℤ) + 1).toNat = 1 := rfl
    have htb : tAt coef3 (0 : ℤ).toNat = 0 := rfl
    have hca : cAt coef3 (0 : ℤ).toNat 0 0 = 0 := rfl
    have hcb : cAt coef3 ((0 : ℤ) + 1).toNat 0 0 = 10 := rfl
    simp only [select_coefficient_time, select_coef_index_coef3_m1, hr1, hr2,
      ha0, ha1, hta, htb, hca, hcb, List.map_cons, List.map_nil]
    norm_num
  · have hta : tAt coef3 ((1 : ℤ) + 1).toNat = 2 := rfl
    have htb : tAt coef3 (1 : ℤ).toNat = 1 := rfl
    have hca : cAt coef3 (1 : ℤ).toNat 0 0 = 10 := rfl
    have hcb : cAt coef3 ((1 : ℤ) + 1).toNat 0 0 = 20 := rfl
    simp only [select_coefficient_time, select_coef_index_coef3_3, hr1, hr2,
      ha0, ha1, hta, htb, hca, hcb, List.map_cons, List.map_nil]
    norm_num
  · have h := interpolate_centre_std 3 orient3 true false 0 1 3 1
      1 2 10 20 10 20 10 20 rfl rfl rfl uniformIndex_eval_3 (by decide)
      (by decide) rfl rfl rfl rfl rfl rfl rfl rfl
    rw [h]
    norm_num
  · have h := interpolate_centre_presim (-1) orient3 0 1 0 0 0 rfl rfl rfl
      rfl rfl rfl (by rw [uniformIndex_eval_m1]; norm_num)
    rw [h]
    norm_num [show orient3.zerotimevelocities = (1, 2, 3) from rfl]

/-- getD agrees with a successful get?. -/
lemma getD_of_get? (l : List ℚ) (n : ℕ) (a : ℚ) (h : l.get? n = some a) :
    l.getD n 0 = a := by
  obtain ⟨hl, he⟩ := List.get?_eq_some.mp h
  rw [List.getD_eq_get _ _ hl, he]

/-- zGet at a natural index inside the series reads the stored value. -/
lemma zGet_natCast (l : List ℚ) (n : ℕ) (h : n < l.length) :
    zGet l (n : ℤ) = some (l.getD n 0) := by
  unfold zGet
  rw [if_neg (by omega), show ((n : ℤ)).toNat = n from rfl,
    List.get?_eq_get h, List.getD_eq_get _ _ h]

/-- On a strictly increasing series, stored values are monotone in the
index. -/
lemma sorted_getD_mono (l : List ℚ) (hs : List.Sorted (· < ·) l) (a b : ℕ)
    (hab : a ≤ b) (hb : b < l.length) : l.getD a 0 ≤ l.getD b 0 := by
  rcases eq_or_lt_of_le hab with rfl | hlt
  · exact le_rfl
  · have ha : a < l.length := lt_trans hlt hb
    rw [List.getD_eq_get _ _ ha, List.getD_eq_get _ _ hb]
    exact le_of_lt (List.pairwise_iff_get.mp hs ⟨a, ha⟩ ⟨b, hb⟩ hlt)

/-- If every stored time from index i onward is at most q, the scan walks
off the end of the series (the C++ out-of-bounds read time[NUMT]). -/
lemma scan_from_none (time : List ℚ) (q : ℚ) :
    ∀ (fuel i : ℕ), (∀ j, i ≤ j → j < time.length → time.getD j 0 ≤ q) →
      scan_from time q i fuel = none := by
  intro fuel
  induction fuel with
  | zero => intro i h; rfl
  | succ n ih =>
    intro i h
    cases hg : time.get? i with
    | none => simp only [scan_from, hg]
    | some t =>
      have hl : i < time.length := (List.get?_eq_some.mp hg).1
      have ht : t ≤ q := by
        have h2 := h i le_rfl hl
        rwa [getD_of_get? _ _ _ hg] at h2
      simp only [scan_from, hg, if_pos ht]
      exact ih (i + 1) (fun j hj hjl => h j (by omega) hjl)

/-- The scan stops at the first index, from i on, whose stored time
exceeds q, provided such an index exists in the series and the fuel
suffices. -/
lemma scan_from_found (time : List ℚ) (q : ℚ) :
    ∀ (fuel i s : ℕ), i ≤ s → s < time.length → s + 1 ≤ i + fuel →
      (∀ j, i ≤ j → j < s → time.getD j 0 ≤ q) →
      q < time.getD s 0 →
      scan_from time q i fuel = some s := by
  intro fuel
  induction fuel with
  | zero => intro i s h1 h2 h3 h4 h5; omega
  | succ n ih =>
    intro i s h1 h2 h3 h4 h5
    have hil : i < time.length := by omega
    obtain ⟨t, hg⟩ : ∃ t, time.get? i = some t :=
      ⟨time.get ⟨i, hil⟩, List.get?_eq_get hil⟩
    have hgd := getD_of_get? _ _ _ hg
    rcases eq_or_lt_of_le h1 with rfl | hlt
    · have hnt : ¬ t ≤ q := by rw [hgd] at h5; exact not_le.mpr h5
      simp only [scan_from, hg, if_neg hnt]
    · have ht : t ≤ q := by
        have h6 := h4 i le_rfl hlt
        rwa [hgd] at h6
      simp only [scan_from, hg, if_pos ht]
      exact ih (i + 1) s hlt h2 (by omega)
        (fun j hj hjl => h4 j (by omega) hjl) h5

/-- A successful scan stops inside the series, at or after its start. -/
lemma scan_from_some (time : List ℚ) (q : ℚ) :
    ∀ (fuel i s : ℕ), scan_from time q i fuel = some s →
      i ≤ s ∧ s < time.length := by
  intro fuel
  induction fuel with
  | zero => intro i s h; simp [scan_from] at h
  | succ n ih =>
    intro i s h
    cases hg : time.get? i with
    | none =>
      simp only [scan_from, hg] at h
      exact Option.noConfusion h
    | some t =>
      simp only [scan_from, hg] at h
      by_cases ht : t ≤ q
      · rw [if_pos ht] at h
        obtain ⟨h1, h2⟩ := ih (i + 1) s h
        exact ⟨by omega, h2⟩
      · rw [if_neg ht] at h
        obtain rfl : i = s := by simpa using h
        exact ⟨le_rfl, (List.get?_eq_some.mp hg).1⟩

/-- The clamp keeps the index in [0, NUMT-2] whenever NUMT is at least
2. -/
lemma clamp_index_bounds (NUMT : ℕ) (raw : ℤ) (h2 : 2 ≤ NUMT) :
    0 ≤ clamp_index NUMT raw ∧ clamp_index NUMT raw ≤ (NUMT : ℤ) - 2 := by
  simp only [clamp_index]
  constructor <;> split_ifs <;> omega

/-- An in-range index passes through the clamp untouched. -/
lemma clamp_index_eq_self (NUMT : ℕ) (raw : ℤ) (h0 : 0 ≤ raw)
    (h1 : raw ≤ (NUMT : ℤ) - 2) : clamp_index NUMT raw = raw := by
  simp only [clamp_index]
  split_ifs <;> omega

/-- Forward evaluation of find_time_index from a successful scan and two
in-bounds spacing reads. -/
lemma find_time_index_eval (q : ℚ) (o : SphOrient) (s : ℕ) (t1 t0 : ℚ)
    (hscan : scan_from o.time q 0 (o.time.length + 1) = some s)
    (h1 : zGet o.time (clamp_index o.NUMT ((s : ℤ) - 1) + 1) = some t1)
    (h0 : zGet o.time (clamp_index o.NUMT ((s : ℤ) - 1)) = some t0) :
    find_time_index q o =
      some (clamp_index o.NUMT ((s : ℤ) - 1), t1 - t0,
            decide ((o.NUMT : ℤ) - 2 < (s : ℤ) - 1)) := by
  simp only [find_time_index, hscan, Option.bind_eq_bind, Option.some_bind,
    h1, h0, Option.pure_def]

/-- Inversion: a successful find_time_index comes from a successful scan,
and its index and diagnostic are determined by the stopping position. -/
lemma find_time_index_some (q : ℚ) (o : SphOrient) (i : ℤ) (dt : ℚ)
    (w : Bool) (h : find_time_index q o = some (i, dt, w)) :
    ∃ s : ℕ, scan_from o.time q 0 (o.time.length + 1) = some s ∧
      i = clamp_index o.NUMT ((s : ℤ) - 1) ∧
      w = decide ((o.NUMT : ℤ) - 2 < (s : ℤ) - 1) := by
  cases hscan : scan_from o.time q 0 (o.time.length + 1) with
  | none =>
    rw [find_time_index] at h
    simp only [hscan, Option.bind_eq_bind, Option.none_bind] at h
    exact Option.noConfusion h
  | some s =>
    refine ⟨s, rfl, ?_⟩
    rw [find_time_index] at h
    simp only [hscan, Option.bind_eq_bind, Option.some_bind] at h
    rw [Option.bind_eq_some] at h
    obtain ⟨t1, hz1, h⟩ := h
    rw [Option.bind_eq_some] at h
    obtain ⟨t0, hz0, h⟩ := h
    simp only [Option.pure_def, Option.some.injEq, Prod.mk.injEq] at h
    exact ⟨h.1.symm, h.2.2.symm⟩

/-- C2 counterexample: at q = -1 on orient3 the scan stops at index 0, so
the pre-clamp index is -1 and find_time_index clamps it to 0, yet the
returned diagnostic flag (the only diagnostic this resolver has, the
high-end one) is false: the low-end clamp is silent. -/
theorem C2_counterexample :
    scan_from orient3.time (-1) 0 (orient3.time.length + 1) = some 0 ∧
    find_time_index (-1) orient3 = some (0, 1, false) := by
  have hscan : scan_from orient3.time (-1) 0 (orient3.time.length + 1) =
      some 0 := by
    apply scan_from_found
    · exact le_rfl
    · decide
    · decide
    · intro j h1 h2
      omega
    · rw [show orient3.time.getD 0 0 = (0 : ℚ) from rfl]
      norm_num
  refine ⟨hscan, ?_⟩
  rw [find_time_index_eval (-1) orient3 0 1 0 hscan rfl rfl]
  simp only [Option.some.injEq, Prod.mk.injEq]
  exact ⟨by decide, by norm_num, by decide⟩

/-- C2 amended: both resolvers clamp the returned index into [0, n-2]
(n = NUMT at least 2). The uniform-policy resolver select_coef_index
raises its low diagnostic exactly when the pre-clamp index is negative and
its high diagnostic exactly when the pre-clamp index exceeds n-2. The
non-uniform resolver find_time_index carries only the high-end diagnostic,
and on any in-bounds execution (the scan stopping inside the series) that
flag is false: in particular a low-end clamp is never accompanied by a
diagnostic there. -/
theorem C2_clamp_amended :
    (∀ (q : ℚ) (c : SphCoefs), 2 ≤ c.NUMT →
      0 ≤ (select_coef_index q c).1 ∧
      (select_coef_index q c).1 ≤ (c.NUMT : ℤ) - 2 ∧
      ((select_coef_index q c).2.1 = true ↔
        uniformIndex (tAt c 0) (tAt c 1 - tAt c 0) q < 0) ∧
      ((select_coef_index q c).2.2 = true ↔
        (c.NUMT : ℤ) - 2 < uniformIndex (tAt c 0) (tAt c 1 - tAt c 0) q)) ∧
    (∀ (q : ℚ) (o : SphOrient) (i : ℤ) (dt : ℚ) (w : Bool),
      find_time_index q o = some (i, dt, w) → o.time.length = o.NUMT →
      2 ≤ o.NUMT → 0 ≤ i ∧ i ≤ (o.NUMT : ℤ) - 2 ∧ w = false) := by
  constructor
  · intro q c h2
    obtain ⟨hb1, hb2⟩ :=
      clamp_index_bounds c.NUMT
        (uniformIndex (tAt c 0) (tAt c 1 - tAt c 0) q) h2
    simp only [select_coef_index, decide_eq_true_eq]
    exact ⟨hb1, hb2, trivial, trivial⟩
  · intro q o i dt w h hlen h2
    obtain ⟨s, hscan, hi, hw⟩ := find_time_index_some q o i dt w h
    obtain ⟨hs0, hslen⟩ := scan_from_some o.time q _ _ _ hscan
    obtain ⟨hb1, hb2⟩ := clamp_index_bounds o.NUMT ((s : ℤ) - 1) h2
    subst hi
    refine ⟨hb1, hb2, ?_⟩
    rw [hw, decide_eq_false_iff_not]
    omega

/-- Closed instance of C2 amended: the coefficient resolver at q = 1/2 on
coef3, and find_time_index at q = 1/2 on orient3 (scan stops at 1, index
0, no diagnostic). -/
theorem C2_clamp_amended_witness :
    (2 ≤ coef3.NUMT ∧
      (0 ≤ (select_coef_index (1/2) coef3).1 ∧
       (select_coef_index (1/2) coef3).1 ≤ (coef3.NUMT : ℤ) - 2 ∧
       ((select_coef_index (1/2) coef3).2.1 = true ↔
         uniformIndex (tAt coef3 0) (tAt coef3 1 - tAt coef3 0) (1/2) < 0) ∧
       ((select_coef_index (1/2) coef3).2.2 = true ↔
         (coef3.NUMT : ℤ) - 2 <
           uniformIndex (tAt coef3 0) (tAt coef3 1 - tAt coef3 0) (1/2)))) ∧
    (find_time_index (1/2) orient3 = some (0, 1, false) ∧
     orient3.time.length = orient3.NUMT ∧ 2 ≤ orient3.NUMT ∧
     (0 ≤ (0 : ℤ) ∧ (0 : ℤ) ≤ (orient3.NUMT : ℤ) - 2 ∧ false = false)) := by
  have hscan : scan_from orient3.time (1/2) 0 (orient3.time.length + 1) =
      some 1 := by
    apply scan_from_found
    · exact Nat.zero_le 1
    · decide
    · decide
    · intro j h1 h2
      have hj : j = 0 := by omega
      subst hj
      rw [show orient3.time.getD 0 0 = (0 : ℚ) from rfl]
      norm_num
    · rw [show orient3.time.getD 1 0 = (1 : ℚ) from rfl]
      norm_num
  have hfind : find_time_index (1/2) orient3 = some (0, 1, false) := by
    rw [find_time_index_eval (1/2) orient3 1 1 0 hscan rfl rfl]
    simp only [Option.some.injEq, Prod.mk.injEq]
    exact ⟨by decide, by norm_num, by decide⟩
  exact ⟨⟨by decide, C2_clamp_amended.1 (1/2) coef3 (by decide)⟩,
         hfind, by decide, by decide,
         C2_clamp_amended.2 (1/2) orient3 0 1 false hfind (by decide)
           (by decide)⟩

/-- C4: on a strictly increasing time axis with at least two samples and
a query inside [T[0], T[NUMT-1]), find_time_index returns the largest
index i with T[i] ≤ q, no diagnostic, and the local spacing
T[i+1] - T[i]. -/
theorem C4_largest_index (o : SphOrient) (q : ℚ)
    (hs : List.Sorted (· < ·) o.time)
    (hlen : o.time.length = o.NUMT) (h2 : 2 ≤ o.NUMT)
    (hq0 : o.time.getD 0 0 ≤ q)
    (hqn : q < o.time.getD (o.NUMT - 1) 0) :
    ∃ i : ℕ, find_time_index q o =
        some ((i : ℤ), o.time.getD (i + 1) 0 - o.time.getD i 0, false) ∧
      i + 1 ≤ o.NUMT - 1 ∧
      o.time.getD i 0 ≤ q ∧
      ∀ j : ℕ, i < j → j < o.NUMT → q < o.time.getD j 0 := by
  have hex : ∃ s : ℕ, q < o.time.getD s 0 := ⟨o.NUMT - 1, hqn⟩
  have hPs : q < o.time.getD (Nat.find hex) 0 := Nat.find_spec hex
  have hmin : ∀ m, m < Nat.find hex → ¬ q < o.time.getD m 0 :=
    fun m hm => Nat.find_min hex hm
  have hsle : Nat.find hex ≤ o.NUMT - 1 := Nat.find_min' hex hqn
  have hs1 : 1 ≤ Nat.find hex := by
    rcases Nat.eq_zero_or_pos (Nat.find hex) with h0 | h
    · exfalso
      rw [h0] at hPs
      exact absurd hPs (not_lt.mpr hq0)
    · exact h
  set s := Nat.find hex with hsdef
  have hslen : s < o.time.length := by omega
  have hscan : scan_from o.time q 0 (o.time.length + 1) = some s := by
    apply scan_from_found
    · exact Nat.zero_le s
    · exact hslen
    · omega
    · intro j hj hjs
      exact not_lt.mp (hmin j hjs)
    · exact hPs
  have hclamp : clamp_index o.NUMT ((s : ℤ) - 1) = (s : ℤ) - 1 :=
    clamp_index_eq_self _ _ (by omega) (by omega)
  have hc1 : clamp_index o.NUMT ((s : ℤ) - 1) + 1 = ((s : ℕ) : ℤ) := by
    rw [hclamp]
    omega
  have hc0 : clamp_index o.NUMT ((s : ℤ) - 1) = (((s - 1 : ℕ)) : ℤ) := by
    rw [hclamp]
    omega
  have hz1 : zGet o.time (clamp_index o.NUMT ((s : ℤ) - 1) + 1) =
      some (o.time.getD s 0) := by
    rw [hc1]
    exact zGet_natCast o.time s hslen
  have hz0 : zGet o.time (clamp_index o.NUMT ((s : ℤ) - 1)) =
      some (o.time.getD (s - 1) 0) := by
    rw [hc0]
    exact zGet_natCast o.time (s - 1) (by omega)
  have heval := find_time_index_eval q o s _ _ hscan hz1 hz0
  refine ⟨s - 1, ?_, by omega, ?_, ?_⟩
  · rw [heval]
    have hss : (s - 1 : ℕ) + 1 = s := by omega
    rw [hss]
    simp only [Option.some.injEq, Prod.mk.injEq]
    refine ⟨by rw [hclamp]; omega, trivial, ?_⟩
    rw [decide_eq_false_iff_not]
    omega
  · exact not_lt.mp (hmin (s - 1) (by omega))
  · intro j hj hjN
    have hsj : s ≤ j := by omega
    rcases eq_or_lt_of_le hsj with rfl | hlt
    · exact hPs
    · exact lt_of_lt_of_le hPs
        (sorted_getD_mono o.time hs s j (le_of_lt hlt) (by omega))

/-- Closed instance of C4 on orient3 at q = 1/2. -/
theorem C4_largest_index_witness :
    (List.Sorted (· < ·) orient3.time ∧
     orient3.time.length = orient3.NUMT ∧ 2 ≤ orient3.NUMT ∧
     orient3.time.getD 0 0 ≤ (1/2 : ℚ) ∧
     (1/2 : ℚ) < orient3.time.getD (orient3.NUMT - 1) 0) ∧
    (∃ i : ℕ, find_time_index (1/2) orient3 =
        some ((i : ℤ),
          orient3.time.getD (i + 1) 0 - orient3.time.getD i 0, false) ∧
      i + 1 ≤ orient3.NUMT - 1 ∧
      orient3.time.getD i 0 ≤ (1/2 : ℚ) ∧
      ∀ j : ℕ, i < j → j < orient3.NUMT →
        (1/2 : ℚ) < orient3.time.getD j 0) := by
  have hsort : List.Sorted (· < ·) orient3.time := by
    rw [show orient3.time = ([0, 1, 2] : List ℚ) from rfl]
    norm_num [List.sorted_cons]
  have hq0 : orient3.time.getD 0 0 ≤ (1/2 : ℚ) := by
    rw [show orient3.time.getD 0 0 = (0 : ℚ) from rfl]
    norm_num
  have hqn : (1/2 : ℚ) < orient3.time.getD (orient3.NUMT - 1) 0 := by
    rw [show orient3.time.getD (orient3.NUMT - 1) 0 = (2 : ℚ) from rfl]
    norm_num
  exact ⟨⟨hsort, by decide, by decide, hq0, hqn⟩,
         C4_largest_index orient3 (1/2) hsort (by decide) (by decide)
           hq0 hqn⟩

/-- C9: on a strictly increasing axis, a query at or beyond the last
stored time drives the scan loop past the final element: the model
returns none, standing for the C++ read of time[NUMT] one past the end,
which happens before the post-loop clamp can run. -/
theorem C9_scan_oob (o : SphOrient) (q : ℚ)
    (hs : List.Sorted (· < ·) o.time)
    (hlen : o.time.length = o.NUMT) (h1 : 1 ≤ o.NUMT)
    (hq : o.time.getD (o.NUMT - 1) 0 ≤ q) :
    scan_from o.time q 0 (o.time.length + 1) = none ∧
    find_time_index q o = none := by
  have hall : ∀ j, 0 ≤ j → j < o.time.length → o.time.getD j 0 ≤ q := by
    intro j _ hj
    exact le_trans
      (sorted_getD_mono o.time hs j (o.NUMT - 1) (by omega) (by omega)) hq
  have hscan := scan_from_none o.time q (o.time.length + 1) 0
    (fun j hj hjl => hall j hj hjl)
  refine ⟨hscan, ?_⟩
  rw [find_time_index]
  simp only [hscan, Option.bind_eq_bind, Option.none_bind]

/-- Closed instance of C9 on orient3 at q = 2 = T[NUMT-1]. -/
theorem C9_scan_oob_witness :
    (List.Sorted (· < ·) orient3.time ∧
     orient3.time.length = orient3.NUMT ∧ 1 ≤ orient3.NUMT ∧
     orient3.time.getD (orient3.NUMT - 1) 0 ≤ (2 : ℚ)) ∧
    (scan_from orient3.time 2 0 (orient3.time.length + 1) = none ∧
     find_time_index 2 orient3 = none) := by
  have hsort : List.Sorted (· < ·) orient3.time := by
    rw [show orient3.time = ([0, 1, 2] : List ℚ) from rfl]
    norm_num [List.sorted_cons]
  have hq : orient3.time.getD (orient3.NUMT - 1) 0 ≤ (2 : ℚ) := by
    rw [show orient3.time.getD (orient3.NUMT - 1) 0 = (2 : ℚ) from rfl]
  exact ⟨⟨hsort, by decide, by decide, hq⟩,
         C9_scan_oob orient3 2 hsort (by decide) (by decide) hq⟩

/-- The regression loop reads past a series shorter than nPoints: the
first out-of-bounds access surfaces as the oobRead error. -/
lemma fit_sums_len_none (time xs ys zs : List ℚ) :
    ∀ n, time.length < n → fit_sums time xs ys zs n = none := by
  intro n
  induction n with
  | zero => intro h; omega
  | succ m ih =>
    intro h
    rcases Nat.lt_or_ge time.length m with hlt | hge
    · simp only [fit_sums, ih hlt, Option.bind_eq_bind, Option.none_bind]
    · have hg : time.get? m = none := List.get?_eq_none.mpr (by omega)
      cases hfs : fit_sums time xs ys zs m with
      | none =>
        simp only [fit_sums, hfs, Option.bind_eq_bind, Option.none_bind]
      | some s =>
        simp only [fit_sums, hfs, hg, Option.bind_eq_bind,
          Option.some_bind, Option.none_bind]

/-- find_initial_velocity fails with the out-of-bounds error whenever the
time series is shorter than the regression window. -/
lemma fiv_oob_of_short (o : SphOrient) (accel : Bool) (nPoints : ℕ)
    (h : o.time.length < nPoints) :
    find_initial_velocity o accel nPoints = .error .oobRead := by
  have hfs := fit_sums_len_none o.time
    (if accel = true then o.ucen else o.xcen)
    (if accel = true then o.vcen else o.ycen)
    (if accel = true then o.wcen else o.zcen) nPoints h
  simp only [find_initial_velocity, hfs]

/-- C8: with backward extrapolation enabled the regression sums the first
nPoints entries of the time and chosen-channel series unconditionally, so
any table with fewer stored samples than nPoints drives the fit past the
stored series (the model returns the out-of-bounds error). -/
theorem C8_fit_reads_past (o : SphOrient) (accel : Bool) (nPoints : ℕ)
    (h : o.time.length < nPoints) :
    find_initial_velocity o accel nPoints = .error .oobRead :=
  fiv_oob_of_short o accel nPoints h

/-- Closed instance of C8 at the default window nPoints = 2000 on a
two-sample table. -/
theorem C8_fit_reads_past_witness :
    degenerate_orient.time.length < 2000 ∧
    find_initial_velocity degenerate_orient false 2000 = .error .oobRead :=
  ⟨by decide, C8_fit_reads_past degenerate_orient false 2000 (by decide)⟩

/-- C6: when the time-variance denominator sumT2 - sumT·(sumT/nPoints)
(that is, Σt² - n·meanT²) accumulated over the leading nPoints samples
has magnitude below 1e-7, find_initial_velocity fails fatally with the
configuration error, and read_orient propagates any such fatal fit
failure, so the load returns an error and no populated table. -/
theorem C6_degenerate_regression :
    (∀ (o : SphOrient) (accel : Bool) (nPoints : ℕ) (s : FitSums),
      fit_sums o.time (if accel = true then o.ucen else o.xcen)
        (if accel = true then o.vcen else o.ycen)
        (if accel = true then o.wcen else o.zcen) nPoints = some s →
      |s.sumT2 - s.sumT * (s.sumT / (nPoints : ℚ))| < 1 / 10000000 →
      find_initial_velocity o accel nPoints = .error .configError) ∧
    (∀ (p : String) (fd : OrientFile) (baccel : Bool) (o : SphOrient)
       (e : FitError), p ≠ "" →
      find_initial_velocity (loaded_table fd true o) baccel 2000 =
        .error e →
      read_orient p (some fd) true true baccel o =
        .error (.fitError e)) := by
  constructor
  · intro o accel nPoints s hfs habs
    simp only [find_initial_velocity, hfs]
    rw [if_pos habs]
  · intro p fd baccel o e hp hfiv
    simp only [read_orient, if_neg hp, hfiv, eq_self_iff_true, if_true]

/-- Closed instance of C6: the degenerate two-sample table (both times 1)
has denominator 0, and loading degenerate_file with backwards enabled
returns a fatal fit error (here the out-of-bounds read of the default
2000-point window). -/
theorem C6_degenerate_regression_witness :
    (fit_sums degenerate_orient.time
        (if false = true then degenerate_orient.ucen
         else degenerate_orient.xcen)
        (if false = true then degenerate_orient.vcen
         else degenerate_orient.ycen)
        (if false = true then degenerate_orient.wcen
         else degenerate_orient.zcen) 2 =
      some ⟨2, 5, 5, 5, 5, 5, 5, 2⟩ ∧
     |(2 : ℚ) - 2 * (2 / ((2 : ℕ) : ℚ))| < 1 / 10000000 ∧
     find_initial_velocity degenerate_orient false 2 =
       .error .configError) ∧
    (("f" : String) ≠ "" ∧
     find_initial_velocity (loaded_table degenerate_file true default_orient)
       false 2000 = .error .oobRead ∧
     read_orient "f" (some degenerate_file) true true false default_orient =
       .error (.fitError .oobRead)) := by
  have hfiv : find_initial_velocity
      (loaded_table degenerate_file true default_orient) false 2000 =
      .error .oobRead :=
    fiv_oob_of_short _ false 2000 (by decide)
  have hfs : fit_sums degenerate_orient.time
      (if false = true then degenerate_orient.ucen
       else degenerate_orient.xcen)
      (if false = true then degenerate_orient.vcen
       else degenerate_orient.ycen)
      (if false = true then degenerate_orient.wcen
       else degenerate_orient.zcen) 2 =
      some ⟨2, 5, 5, 5, 5, 5, 5, 2⟩ := by
    norm_num [fit_sums, degenerate_orient]
  have habs : |(2 : ℚ) - 2 * (2 / ((2 : ℕ) : ℚ))| < 1 / 10000000 := by
    norm_num
  exact ⟨⟨hfs, habs,
          C6_degenerate_regression.1 degenerate_orient false 2
            ⟨2, 5, 5, 5, 5, 5, 5, 2⟩ hfs habs⟩,
         ⟨by decide, hfiv,
          C6_degenerate_regression.2 "f" degenerate_file false
            default_orient .oobRead (by decide) hfiv⟩⟩

/-- C7: after a load, the eventime flag is true iff every consecutive
spacing T[i] - T[i-1], for i in [2, NUMT), deviates from the first
spacing dt = T[1] - T[0] by at most dt/10; the axis [0,1,5/2] yields
eventime = false, the axis [0,1,2,3] yields eventime = true, and
read_orient returns exactly the loaded table for a successful
no-velocity load. -/
theorem C7_eventime_iff :
    (∀ (fd : OrientFile) (hv : Bool) (o : SphOrient), o.eventime = true →
      ((loaded_table fd hv o).eventime = true ↔
        ∀ i : ℕ, 2 ≤ i → i < fd.NUMT →
          |(loaded_table fd hv o).time.getD i 0 -
            (loaded_table fd hv o).time.getD (i - 1) 0 -
            ((loaded_table fd hv o).time.getD 1 0 -
             (loaded_table fd hv o).time.getD 0 0)| ≤
          ((loaded_table fd hv o).time.getD 1 0 -
           (loaded_table fd hv o).time.getD 0 0) / 10)) ∧
    (∀ (p : String) (fd : OrientFile) (b ba : Bool) (o : SphOrient),
      p ≠ "" →
      read_orient p (some fd) false b ba o = .ok (loaded_table fd false o)) ∧
    (loaded_table uneven_file false default_orient).eventime = false ∧
    (loaded_table even_file false default_orient).eventime = true := by
  refine ⟨?_, ?_, ?_, ?_⟩
  · intro fd hv o he
    simp only [loaded_table, compute_eventime, he, Bool.true_and,
      List.all_eq_true]
    constructor
    · intro h i h2 hi
      have hmem : i ∈ List.range' 2 (fd.NUMT - 2) := by
        rw [List.mem_range'_1]
        omega
      have h3 := h i hmem
      rwa [decide_eq_true_eq] at h3
    · intro h x hx
      rw [List.mem_range'_1] at hx
      rw [decide_eq_true_eq]
      exact h x hx.1 (by omega)
  · intro p fd b ba o hp
    simp only [read_orient, if_neg hp, Bool.false_eq_true, if_false,
      ite_false]
  · have h3 : (loaded_table uneven_file false default_orient).eventime =
        compute_eventime [0, 1, 5/2] true 3 := rfl
    rw [h3]
    simp only [compute_eventime, Bool.true_and]
    rw [show List.range' 2 (3 - 2) = [2] from rfl]
    simp only [List.all_cons, List.all_nil, Bool.and_true]
    rw [decide_eq_false]
    norm_num [show ([0, 1, 5/2] : List ℚ).getD 2 0 = 5/2 from rfl,
      show ([0, 1, 5/2] : List ℚ).getD (2 - 1) 0 = 1 from rfl,
      show ([0, 1, 5/2] : List ℚ).getD 0 0 = 0 from rfl,
      show |(1/2 : ℚ)| = 1/2 from abs_of_nonneg (by norm_num)]
  · have h4 : (loaded_table even_file false default_orient).eventime =
        compute_eventime [0, 1, 2, 3] true 4 := rfl
    rw [h4]
    simp only [compute_eventime, Bool.true_and]
    rw [show List.range' 2 (4 - 2) = [2, 3] from rfl]
    simp only [List.all_cons, List.all_nil, Bool.and_true]
    rw [decide_eq_true, decide_eq_true]
    · rfl
    · norm_num [show ([0, 1, 2, 3] : List ℚ).getD 3 0 = 3 from rfl,
        show ([0, 1, 2, 3] : List ℚ).getD (3 - 1) 0 = 2 from rfl,
        show ([0, 1, 2, 3] : List ℚ).getD 0 0 = 0 from rfl]
    · norm_num [show ([0, 1, 2, 3] : List ℚ).getD 2 0 = 2 from rfl,
        show ([0, 1, 2, 3] : List ℚ).getD (2 - 1) 0 = 1 from rfl,
        show ([0, 1, 2, 3] : List ℚ).getD 0 0 = 0 from rfl]

/-- Closed instance of C7: the iff evaluated on even_file over the fresh
inertial table, and the successful no-velocity load of even_file. -/
theorem C7_eventime_iff_witness :
    (default_orient.eventime = true ∧
     ((loaded_table even_file false default_orient).eventime = true ↔
       ∀ i : ℕ, 2 ≤ i → i < even_file.NUMT →
         |(loaded_table even_file false default_orient).time.getD i 0 -
           (loaded_table even_file false default_orient).time.getD (i - 1) 0 -
           ((loaded_table even_file false default_orient).time.getD 1 0 -
            (loaded_table even_file false default_orient).time.getD 0 0)| ≤
         ((loaded_table even_file false default_orient).time.getD 1 0 -
          (loaded_table even_file false default_orient).time.getD 0 0) / 10)) ∧
    (("g" : String) ≠ "" ∧
     read_orient "g" (some even_file) false false false default_orient =
       .ok (loaded_table even_file false default_orient)) :=
  ⟨⟨rfl, C7_eventime_iff.1 even_file false default_orient rfl⟩,
   ⟨by decide, C7_eventime_iff.2.1 "g" even_file false false default_orient
      (by decide)⟩⟩
